import Mathlib

/-!
Verification development for the MicroBitLightSensor driver
(source/drivers/MicroBitLightSensor.cpp).

The driver interleaves ambient-light sensing with the LED display: it
round-robins over C display columns, records one raw analog conversion per
completed cycle, and maintains a running average plus a last-known-valid
average.  The definitions below are a shallow embedding of that code:
machine ints become Lean Int (C++ division, which truncates toward zero,
becomes Int.tdiv), the results array becomes a List Int of length C, and
hardware or event-bus side effects become explicit action or event lists.
-/

namespace MicroBitDAL

/-- Modelled from the spec: the channel count MICROBIT_LIGHT_SENSOR_CHAN_NUM
is declared in MicroBitLightSensor.h, which is not part of the excerpt; the
spec fixes C = 3. -/
def MICROBIT_LIGHT_SENSOR_CHAN_NUM : Nat := 3

/-- Modelled from the spec: MICROBIT_LIGHT_SENSOR_MIN_VALUE is declared in
MicroBitLightSensor.h, not in the excerpt; the spec fixes MIN_VALUE = 0. -/
def MICROBIT_LIGHT_SENSOR_MIN_VALUE : Int := 0

/-- Modelled from the spec: MICROBIT_LIGHT_SENSOR_MAX_VALUE is declared in
MicroBitLightSensor.h, not in the excerpt; the spec fixes MAX_VALUE = 450. -/
def MICROBIT_LIGHT_SENSOR_MAX_VALUE : Int := 450

/-- Events published by the embedded code.  The single constructor
lightSenseReady stands for
MicroBitEvent(MICROBIT_ID_LIGHT_SENSOR, MICROBIT_DISPLAY_EVT_LIGHT_SENSE_READY)
as raised in update_averages. -/
inductive SensorEvent where
  | lightSenseReady
deriving DecidableEq, Repr

/-- The mutable members of MicroBitLightSensor that the averaging logic
touches: the current channel index chan, the per-channel results array,
and the two averages. -/
structure SensorState where
  chan : Nat
  results : List Int
  average : Int
  valid_average : Int
deriving DecidableEq, Repr

/-- State after the constructor (MicroBitLightSensor.cpp lines 86-101):
chan = 0, valid_average = -1, every results slot -1.

Modelled from the spec: the constructor body in the excerpt never assigns
the average member (its declaration, and any default initializer, live in
MicroBitLightSensor.h which is not in the excerpt); the spec states that
construction initializes RunningAverage and ValidAverage to the sentinel,
so average starts at -1 here. -/
def initState : SensorState :=
  { chan := 0
    results := List.replicate MICROBIT_LIGHT_SENSOR_CHAN_NUM (-1)
    average := -1
    valid_average := -1 }

/-- Body of the for-loop of update_averages, factored out: given the slot
reader r, one iteration clears valid when the slot is out of [0, 450] and
adds max(slot, 0) to the running sum. -/
def scanStep (r : Nat → Int) (acc : Bool × Int) (i : Nat) : Bool × Int :=
  (if r i < 0 ∨ r i > 450 then false else acc.1, acc.2 + max (r i) 0)

/-- update_averages (MicroBitLightSensor.cpp lines 110-127): scans the
results array computing validity and the sum of max(result, 0), sets
average = sum / C (C++ truncating division), and when valid also sets
valid_average and raises the LIGHT_SENSE_READY event.  Returns the updated
state, the valid flag the C++ function returns, and the events raised. -/
def update_averages (s : SensorState) : SensorState × Bool × List SensorEvent :=
  let acc := (List.range MICROBIT_LIGHT_SENSOR_CHAN_NUM).foldl
    (scanStep (fun i => s.results.getD i 0)) (true, 0)
  let valid := acc.1
  let average := Int.tdiv acc.2 (MICROBIT_LIGHT_SENSOR_CHAN_NUM : Int)
  if valid then
    ({ s with average := average, valid_average := average },
     true, [SensorEvent.lightSenseReady])
  else
    ({ s with average := average }, false, [])

/-- analogReady (MicroBitLightSensor.cpp lines 43-56) restricted to the
state it mutates: stores the 16-bit unsigned conversion (here a Nat) into
results[chan], advances chan by one modulo C, and calls update_averages.
The hardware steps (analogDisable, driving the column pin high) touch no
member state and are omitted. -/
def analogReady (s : SensorState) (sample : Nat) : SensorState × Bool × List SensorEvent :=
  let s1 : SensorState := { s with results := s.results.set s.chan (Int.ofNat sample) }
  let s2 : SensorState := { s1 with chan := (s1.chan + 1) % MICROBIT_LIGHT_SENSOR_CHAN_NUM }
  update_averages s2

/-- read (MicroBitLightSensor.cpp lines 154-174): picks valid_average or
average, returns -1 when valid_only and the pick is negative, otherwise
clamps into [MIN_VALUE, MAX_VALUE], inverts, and rescales to [0, 255] with
C++ truncating division. -/
def read (s : SensorState) (valid_only : Bool) : Int :=
  let average := if valid_only then s.valid_average else s.average
  if valid_only = true ∧ average < 0 then
    -1
  else
    let average := min average MICROBIT_LIGHT_SENSOR_MAX_VALUE
    let average := max average MICROBIT_LIGHT_SENSOR_MIN_VALUE
    let inverted := (MICROBIT_LIGHT_SENSOR_MAX_VALUE - average) + MICROBIT_LIGHT_SENSOR_MIN_VALUE
    let a : Int := 0
    let b : Int := 255
    a + Int.tdiv ((inverted - MICROBIT_LIGHT_SENSOR_MIN_VALUE) * (b - a))
        (MICROBIT_LIGHT_SENSOR_MAX_VALUE - MICROBIT_LIGHT_SENSOR_MIN_VALUE)

/-- Spec-side description of the non-sentinel read path, written from the
spec words for comparison with read: clamp the chosen average into
[MIN_VALUE, MAX_VALUE], invert as (MAX_VALUE - clamped) + MIN_VALUE, then
rescale by truncating division ((inverted - MIN_VALUE) * 255 divided by
(MAX_VALUE - MIN_VALUE)). -/
def read_spec (avg : Int) : Int :=
  let clamped := max (min avg MICROBIT_LIGHT_SENSOR_MAX_VALUE) MICROBIT_LIGHT_SENSOR_MIN_VALUE
  let inverted := (MICROBIT_LIGHT_SENSOR_MAX_VALUE - clamped) + MICROBIT_LIGHT_SENSOR_MIN_VALUE
  Int.tdiv ((inverted - MICROBIT_LIGHT_SENSOR_MIN_VALUE) * 255)
      (MICROBIT_LIGHT_SENSOR_MAX_VALUE - MICROBIT_LIGHT_SENSOR_MIN_VALUE)

/-- One completed conversion applied to a state paired with the count of
LIGHT_SENSE_READY events published so far. -/
def stepAcc (p : SensorState × Nat) (sample : Nat) : SensorState × Nat :=
  ((analogReady p.1 sample).1, p.2 + (analogReady p.1 sample).2.2.length)

/-- State and total LIGHT_SENSE_READY event count after running a whole
trace of completed conversions from the freshly constructed sensor. -/
def runAcc (trace : List Nat) : SensorState × Nat :=
  trace.foldl stepAcc (initState, 0)

/-- State reachable after a trace of completed conversions. -/
def run (trace : List Nat) : SensorState :=
  (runAcc trace).1

/-- Event-bus actions of construction and destruction. -/
inductive TeardownAction where
  | listenStartSensing
  | ignoreStartSensing
  | cancelTrigger
  | freeSensePin
deriving DecidableEq, Repr

/-- Bus registration performed by the constructor (lines 97-98): when the
default event bus exists, listen for (MICROBIT_ID_DISPLAY,
MICROBIT_DISPLAY_EVT_LIGHT_SENSE) with startSensing as handler. -/
def constructorActions (busPresent : Bool) : List TeardownAction :=
  if busPresent then [TeardownAction.listenStartSensing] else []

/-- Destructor body (MicroBitLightSensor.cpp lines 208-212): when the
default event bus exists it deregisters the startSensing listener; it
performs no other teardown.  The constructors cancelTrigger and
freeSensePin exist in TeardownAction so their absence from this list can
be stated. -/
def destructorActions (busPresent : Bool) : List TeardownAction :=
  if busPresent then [TeardownAction.ignoreStartSensing] else []

/-- Per-cycle control state relevant to re-entrancy: settling records that
an analogTrigger timeout is armed and its analogReady callback has not yet
fired (the cycle has not reached SAMPLED); sensePinAllocated records that
the sensePin member is non-NULL. -/
structure CycleState where
  settling : Bool
  sensePinAllocated : Bool
deriving DecidableEq, Repr

/-- Hardware and resource actions performed by startSensing, in order. -/
inductive CycleAction where
  | driveRowsLow
  | driveColumnHigh
  | releaseDigitalIn
  | deleteSensePin
  | allocSensePin
  | armTrigger
deriving DecidableEq, Repr

/-- startSensing (MicroBitLightSensor.cpp lines 184-201): unconditionally
drives all row pins low, drives the current column pin high, tears down
the DigitalIn, deletes sensePin when it is non-NULL, allocates a fresh
AnalogIn into sensePin, and arms analogTrigger.  The body inspects no
busy or phase flag, so the action list does not depend on settling. -/
def startSensing (c : CycleState) : CycleState × List CycleAction :=
  ({ settling := true, sensePinAllocated := true },
   [CycleAction.driveRowsLow, CycleAction.driveColumnHigh, CycleAction.releaseDigitalIn] ++
   (if c.sensePinAllocated then [CycleAction.deleteSensePin] else []) ++
   [CycleAction.allocSensePin, CycleAction.armTrigger])

/-- Sum over the channels of max(result, 0), as the update_averages loop
accumulates it. -/
def channelSum (s : SensorState) : Int :=
  ((List.range MICROBIT_LIGHT_SENSOR_CHAN_NUM).map
    (fun i => max (s.results.getD i 0) 0)).sum

lemma scan_foldl (r : Nat → Int) (L : List Nat) (b : Bool) (z : Int) :
    L.foldl (scanStep r) (b, z)
      = (b && L.all (fun i => decide (0 ≤ r i ∧ r i ≤ 450)),
         z + (L.map (fun i => max (r i) 0)).sum) := by
  induction L generalizing b z with
  | nil => simp
  | cons i L ih =>
    simp only [List.foldl_cons, List.all_cons, List.map_cons, List.sum_cons]
    rw [show scanStep r (b, z) i
          = (if r i < 0 ∨ r i > 450 then false else b, z + max (r i) 0) from rfl, ih]
    refine Prod.ext ?_ ?_
    · by_cases h : r i < 0 ∨ r i > 450
      · have h2 : ¬ (0 ≤ r i ∧ r i ≤ 450) := by omega
        simp [h, h2]
      · have h2 : 0 ≤ r i ∧ r i ≤ 450 := by omega
        simp [h, h2]
    · simp [add_assoc]

lemma sum_max_nonneg (l : List Int) : 0 ≤ (l.map (fun v => max v 0)).sum := by
  induction l with
  | nil => simp
  | cons x l ih =>
    simp only [List.map_cons, List.sum_cons]
    have : (0 : Int) ≤ max x 0 := le_max_right x 0
    omega

lemma channelSum_nonneg (s : SensorState) : 0 ≤ channelSum s := by
  have h := sum_max_nonneg ((List.range MICROBIT_LIGHT_SENSOR_CHAN_NUM).map
    (fun i => s.results.getD i 0))
  simpa [channelSum, List.map_map, Function.comp] using h

/-- Boolean validity of the whole results array, as the loop computes it. -/
def resultsValid (s : SensorState) : Bool :=
  (List.range MICROBIT_LIGHT_SENSOR_CHAN_NUM).all
    (fun i => decide (0 ≤ s.results.getD i 0 ∧ s.results.getD i 0 ≤ 450))

lemma update_averages_eq (s : SensorState) :
    update_averages s
      = (if resultsValid s then
          ({ s with
              average := Int.tdiv (channelSum s) (MICROBIT_LIGHT_SENSOR_CHAN_NUM : Int),
              valid_average := Int.tdiv (channelSum s) (MICROBIT_LIGHT_SENSOR_CHAN_NUM : Int) },
           true, [SensorEvent.lightSenseReady])
         else
          ({ s with
              average := Int.tdiv (channelSum s) (MICROBIT_LIGHT_SENSOR_CHAN_NUM : Int) },
           false, [])) := by
  simp only [update_averages, scan_foldl, channelSum, resultsValid, Bool.true_and, zero_add]

lemma resultsValid_iff (s : SensorState) :
    resultsValid s = true
      ↔ ∀ i, i < MICROBIT_LIGHT_SENSOR_CHAN_NUM →
          0 ≤ s.results.getD i 0 ∧ s.results.getD i 0 ≤ 450 := by
  constructor
  · intro h i hi
    simpa using List.all_eq_true.mp h i (List.mem_range.mpr hi)
  · intro h
    refine List.all_eq_true.mpr ?_
    intro i hi
    simpa using h i (List.mem_range.mp hi)

lemma update_averages_valid_iff (s : SensorState) :
    (update_averages s).2.1 = true
      ↔ ∀ i, i < MICROBIT_LIGHT_SENSOR_CHAN_NUM →
          0 ≤ s.results.getD i 0 ∧ s.results.getD i 0 ≤ 450 := by
  rw [update_averages_eq, ← resultsValid_iff]
  by_cases h : resultsValid s = true
  · simp [h]
  · simp only [Bool.not_eq_true] at h
    simp [h]

lemma update_averages_average (s : SensorState) :
    (update_averages s).1.average
      = Int.tdiv (channelSum s) (MICROBIT_LIGHT_SENSOR_CHAN_NUM : Int) := by
  rw [update_averages_eq]
  by_cases h : resultsValid s = true
  · simp [h]
  · simp only [Bool.not_eq_true] at h
    simp [h]

lemma update_averages_average_nonneg (s : SensorState) :
    0 ≤ (update_averages s).1.average := by
  rw [update_averages_average]
  exact Int.tdiv_nonneg (channelSum_nonneg s) (by decide)

lemma update_averages_shape (s : SensorState) :
    (update_averages s).1.chan = s.chan ∧
    (update_averages s).1.results = s.results ∧
    (update_averages s).2.2
      = (if (update_averages s).2.1 then [SensorEvent.lightSenseReady] else []) ∧
    (update_averages s).1.valid_average
      = (if (update_averages s).2.1 then (update_averages s).1.average
         else s.valid_average) := by
  rw [update_averages_eq]
  by_cases h : resultsValid s = true
  · simp [h]
  · simp only [Bool.not_eq_true] at h
    simp [h]

lemma read_of_neg (s : SensorState) (h : s.valid_average < 0) :
    read s true = -1 := by
  simp [read, h]

lemma read_eq_spec (s : SensorState) (b : Bool)
    (h : b = false ∨ 0 ≤ s.valid_average) :
    read s b = read_spec (if b then s.valid_average else s.average) := by
  cases b with
  | false =>
    simp [read, read_spec, MICROBIT_LIGHT_SENSOR_MIN_VALUE, MICROBIT_LIGHT_SENSOR_MAX_VALUE]
  | true =>
    have hva : 0 ≤ s.valid_average := by
      rcases h with h | h
      · exact absurd h (by simp)
      · exact h
    have hcond : ¬ (true = true ∧ s.valid_average < 0) := by
      intro hc
      omega
    simp only [read, read_spec,
      MICROBIT_LIGHT_SENSOR_MIN_VALUE, MICROBIT_LIGHT_SENSOR_MAX_VALUE,
      if_true, eq_self_iff_true, true_and]
    rw [if_neg (by omega : ¬ s.valid_average < 0)]
    norm_num

lemma read_spec_bounds (avg : Int) :
    0 ≤ read_spec avg ∧ read_spec avg ≤ 255 := by
  simp only [read_spec, MICROBIT_LIGHT_SENSOR_MIN_VALUE, MICROBIT_LIGHT_SENSOR_MAX_VALUE]
  have hc1 : (0 : Int) ≤ max (min avg 450) 0 := le_max_right _ _
  have hc2 : max (min avg 450) 0 ≤ 450 :=
    max_le (min_le_right avg 450) (by norm_num)
  have hinv : (0 : Int) ≤ ((450 - max (min avg 450) 0) + 0 - 0) * 255 := by
    omega
  rw [Int.tdiv_eq_ediv hinv (by norm_num)]
  omega

/-- The analogReady transition in closed form: store the sample at the old
channel index, advance the channel, then update the averages. -/
lemma analogReady_shape (s : SensorState) (x : Nat) :
    (analogReady s x).1.chan = (s.chan + 1) % MICROBIT_LIGHT_SENSOR_CHAN_NUM ∧
    (analogReady s x).1.results = s.results.set s.chan (Int.ofNat x) ∧
    (analogReady s x).1.valid_average
      = (if (analogReady s x).2.1 then (analogReady s x).1.average
         else s.valid_average) ∧
    (analogReady s x).2.2
      = (if (analogReady s x).2.1 then [SensorEvent.lightSenseReady] else []) ∧
    0 ≤ (analogReady s x).1.average := by
  have h := update_averages_shape
    { s with
        results := s.results.set s.chan (Int.ofNat x),
        chan := (s.chan + 1) % MICROBIT_LIGHT_SENSOR_CHAN_NUM }
  have hn := update_averages_average_nonneg
    { s with
        results := s.results.set s.chan (Int.ofNat x),
        chan := (s.chan + 1) % MICROBIT_LIGHT_SENSOR_CHAN_NUM }
  refine ⟨?_, ?_, ?_, ?_, ?_⟩
  · exact h.1
  · exact h.2.1
  · exact h.2.2.2
  · exact h.2.2.1
  · exact hn

/-- Relation between the state and the ready-event count along a trace:
either no valid cycle has completed (valid_average still the sentinel and
no ready event published) or at least one has (valid_average nonnegative
and at least one ready event published). -/
def ReadyInv (p : SensorState × Nat) : Prop :=
  (p.1.valid_average = -1 ∧ p.2 = 0) ∨ (0 ≤ p.1.valid_average ∧ 0 < p.2)

lemma stepAcc_inv (p : SensorState × Nat) (x : Nat)
    (h : ReadyInv p) : ReadyInv (stepAcc p x) := by
  have hs := analogReady_shape p.1 x
  by_cases hv : (analogReady p.1 x).2.1 = true
  · right
    constructor
    · rw [show (stepAcc p x).1 = (analogReady p.1 x).1 from rfl, hs.2.2.1, hv]
      simpa using hs.2.2.2.2
    · have hev : (analogReady p.1 x).2.2 = [SensorEvent.lightSenseReady] := by
        rw [hs.2.2.2.1, hv]
        simp
      show 0 < p.2 + (analogReady p.1 x).2.2.length
      rw [hev]
      simp
  · have hv2 : (analogReady p.1 x).2.1 = false := by
      simpa using hv
    have hva : (stepAcc p x).1.valid_average = p.1.valid_average := by
      rw [show (stepAcc p x).1 = (analogReady p.1 x).1 from rfl, hs.2.2.1, hv2]
      simp
    have hev : (stepAcc p x).2 = p.2 := by
      show p.2 + (analogReady p.1 x).2.2.length = p.2
      rw [hs.2.2.2.1, hv2]
      simp
    rcases h with ⟨h1, h2⟩ | ⟨h1, h2⟩
    · exact Or.inl ⟨by rw [hva, h1], by rw [hev, h2]⟩
    · exact Or.inr ⟨by rw [hva]; exact h1, by rw [hev]; exact h2⟩

lemma foldl_inv (trace : List Nat) :
    ∀ p : SensorState × Nat, ReadyInv p → ReadyInv (trace.foldl stepAcc p) := by
  induction trace with
  | nil => intro p h; simpa using h
  | cons x trace ih =>
    intro p h
    simpa using ih (stepAcc p x) (stepAcc_inv p x h)

lemma runAcc_inv (trace : List Nat) : ReadyInv (runAcc trace) :=
  foldl_inv trace (initState, 0) (Or.inl ⟨rfl, rfl⟩)

lemma stepAcc_chan (p : SensorState × Nat) (x : Nat) :
    (stepAcc p x).1.chan = (p.1.chan + 1) % MICROBIT_LIGHT_SENSOR_CHAN_NUM :=
  (analogReady_shape p.1 x).1

lemma foldl_chan (trace : List Nat) :
    ∀ p : SensorState × Nat, p.1.chan < MICROBIT_LIGHT_SENSOR_CHAN_NUM →
      (trace.foldl stepAcc p).1.chan
        = (p.1.chan + trace.length) % MICROBIT_LIGHT_SENSOR_CHAN_NUM := by
  induction trace with
  | nil =>
    intro p h
    simp only [List.foldl_nil, List.length_nil, Nat.add_zero]
    simp only [MICROBIT_LIGHT_SENSOR_CHAN_NUM] at h ⊢
    omega
  | cons x trace ih =>
    intro p h
    have h2 : (stepAcc p x).1.chan < MICROBIT_LIGHT_SENSOR_CHAN_NUM := by
      rw [stepAcc_chan]
      exact Nat.mod_lt _ (by decide)
    rw [List.foldl_cons, ih (stepAcc p x) h2, stepAcc_chan]
    simp only [List.length_cons, MICROBIT_LIGHT_SENSOR_CHAN_NUM]
    omega

lemma run_chan (trace : List Nat) :
    (run trace).chan = trace.length % MICROBIT_LIGHT_SENSOR_CHAN_NUM := by
  have h := foldl_chan trace (initState, 0) (by decide)
  simpa [run, runAcc, initState] using h

lemma foldl_results_length (trace : List Nat) :
    ∀ p : SensorState × Nat,
      (trace.foldl stepAcc p).1.results.length = p.1.results.length := by
  induction trace with
  | nil => intro p; rfl
  | cons x trace ih =>
    intro p
    rw [List.foldl_cons, ih (stepAcc p x),
      show (stepAcc p x).1 = (analogReady p.1 x).1 from rfl,
      (analogReady_shape p.1 x).2.1]
    simp

lemma run_results_length (trace : List Nat) :
    (run trace).results.length = MICROBIT_LIGHT_SENSOR_CHAN_NUM := by
  have h := foldl_results_length trace (initState, 0)
  simpa [run, runAcc, initState] using h

lemma runAcc_append (trace : List Nat) (x : Nat) :
    runAcc (trace ++ [x]) = stepAcc (runAcc trace) x := by
  simp [runAcc, List.foldl_append]

lemma getD_set_of_lt (l : List Int) (n i : Nat) (v : Int) (hi : i < l.length) :
    (l.set n v).getD i 0 = if n = i then v else l.getD i 0 := by
  simp only [List.getD_eq_getElem?_getD, List.getElem?_set]
  by_cases h : n = i
  · subst h
    rw [if_pos rfl, if_pos rfl, if_pos hi]
    rfl
  · rw [if_neg h, if_neg h]

/-- Slot i of the results array along a trace: it stays in the sentinel /
sampled-value dichotomy and is negative exactly while channel i has not
yet been sampled (channel i is first written at step i of the round
robin). -/
lemma run_slots (trace : List Nat) (hb : ∀ x ∈ trace, x ≤ 65535) :
    ∀ i, i < MICROBIT_LIGHT_SENSOR_CHAN_NUM →
      ((run trace).results.getD i 0 = -1 ∨
        (0 ≤ (run trace).results.getD i 0 ∧ (run trace).results.getD i 0 ≤ 65535)) ∧
      ((run trace).results.getD i 0 < 0 ↔ trace.length ≤ i) := by
  induction trace using List.reverseRecOn with
  | nil =>
    intro i hi
    have : (run []).results.getD i 0 = -1 := by
      simp only [MICROBIT_LIGHT_SENSOR_CHAN_NUM] at hi
      interval_cases i <;> rfl
    rw [this]
    refine ⟨Or.inl rfl, ?_⟩
    simp
  | append_singleton l x ih =>
    intro i hi
    have hbx : x ≤ 65535 := hb x (by simp)
    have hbl : ∀ y ∈ l, y ≤ 65535 := fun y hy => hb y (by simp [hy])
    have hres : (run (l ++ [x])).results
        = (run l).results.set ((run l).chan) (Int.ofNat x) := by
      show (runAcc (l ++ [x])).1.results = _
      rw [runAcc_append]
      exact (analogReady_shape (runAcc l).1 x).2.1
    have hchan : (run l).chan = l.length % MICROBIT_LIGHT_SENSOR_CHAN_NUM := run_chan l
    have hlen : (run l).results.length = MICROBIT_LIGHT_SENSOR_CHAN_NUM :=
      run_results_length l
    have hgd : (run (l ++ [x])).results.getD i 0
        = if (run l).chan = i then Int.ofNat x else (run l).results.getD i 0 := by
      rw [hres]
      exact getD_set_of_lt _ _ _ _ (by rw [hlen]; exact hi)
    have hih := ih hbl i hi
    rw [hgd]
    by_cases hc : (run l).chan = i
    · rw [if_pos hc]
      have hx0 : (0 : Int) ≤ Int.ofNat x := Int.ofNat_nonneg x
      have hx1 : Int.ofNat x ≤ 65535 := by
        rw [Int.ofNat_eq_natCast]
        exact_mod_cast hbx
      refine ⟨Or.inr ⟨hx0, hx1⟩, ?_⟩
      have : i ≤ l.length := by
        rw [← hc, hchan]
        simp only [MICROBIT_LIGHT_SENSOR_CHAN_NUM]
        omega
      constructor
      · intro hneg
        exact absurd hneg (by omega)
      · intro hle
        simp only [List.length_append, List.length_cons, List.length_nil] at hle
        omega
    · rw [if_neg hc]
      rcases hih with ⟨hd, hiff⟩
      refine ⟨hd, ?_⟩
      have hne : l.length % MICROBIT_LIGHT_SENSOR_CHAN_NUM ≠ i := by
        rw [← hchan]; exact hc
      simp only [List.length_append, List.length_cons, List.length_nil]
      rw [hiff]
      simp only [MICROBIT_LIGHT_SENSOR_CHAN_NUM] at hne hi ⊢
      omega

/-- Claim C1: update_averages computes the validity flag to hold exactly
when every channel slot of the results array lies in the inclusive range
[0, 450]; a slot still holding the never-sampled sentinel -1 therefore
makes the cycle invalid. -/
theorem update_averages_validity_iff_in_range (s : SensorState) :
    (update_averages s).2.1 = true
      ↔ ∀ i, i < MICROBIT_LIGHT_SENSOR_CHAN_NUM →
          0 ≤ s.results.getD i 0 ∧ s.results.getD i 0 ≤ 450 :=
  update_averages_valid_iff s

/-- Claim C2: every call to update_averages, valid or not, sets the average
member to the floor of (sum over the C channels of max(slot, 0)) divided by
C; the -1 never-sampled sentinel thus contributes 0 to the sum rather than
being excluded from it. -/
theorem update_averages_running_average (s : SensorState) :
    (update_averages s).1.average
      = Int.fdiv (((List.range MICROBIT_LIGHT_SENSOR_CHAN_NUM).map
          (fun i => max (s.results.getD i 0) 0)).sum)
          (MICROBIT_LIGHT_SENSOR_CHAN_NUM : Int) := by
  rw [update_averages_average,
    show ((List.range MICROBIT_LIGHT_SENSOR_CHAN_NUM).map
      (fun i => max (s.results.getD i 0) 0)).sum = channelSum s from rfl]
  exact (Int.fdiv_eq_tdiv (channelSum_nonneg s) (by decide)).symm

/-- Claim C3: update_averages publishes the LIGHT_SENSE_READY notification
exactly once when validity holds and not at all otherwise, and assigns
valid_average the freshly computed average exactly when validity holds,
leaving it unchanged otherwise. -/
theorem update_averages_valid_average_and_event (s : SensorState) :
    (update_averages s).2.2
      = (if (update_averages s).2.1 then [SensorEvent.lightSenseReady] else []) ∧
    (update_averages s).1.valid_average
      = (if (update_averages s).2.1 then (update_averages s).1.average
         else s.valid_average) :=
  ⟨(update_averages_shape s).2.2.1, (update_averages_shape s).2.2.2⟩

/-- Claim C4: read(true) returns the no-data sentinel -1 exactly in the
reachable states in which no fully valid averaging cycle has completed yet
(no LIGHT_SENSE_READY notification published); once a valid cycle has
completed it never returns -1 again, however many later cycles are
invalid. -/
theorem read_true_sentinel_iff_no_valid_cycle (trace : List Nat) :
    read (run trace) true = -1 ↔ (runAcc trace).2 = 0 := by
  have hrun : run trace = (runAcc trace).1 := rfl
  rcases runAcc_inv trace with ⟨h1, h2⟩ | ⟨h1, h2⟩
  · constructor
    · intro _
      exact h2
    · intro _
      refine read_of_neg (run trace) ?_
      rw [hrun, h1]
      norm_num
  · constructor
    · intro hr
      have hspec := read_eq_spec (run trace) true (Or.inr (by rw [hrun]; exact h1))
      have hbnd := read_spec_bounds ((run trace).valid_average)
      rw [hspec] at hr
      simp only [if_true, ite_true] at hr
      omega
    · intro hc
      omega

/-- Claim C5: the channel index starts at 0, each completed conversion
advances it by exactly one modulo C, and in every reachable state it is
trace-length mod C, hence always in [0, C): the sampled channels follow
the strict round robin 0, 1, ..., C-1, 0, 1, ... . -/
theorem chan_round_robin :
    initState.chan = 0 ∧
    (∀ (s : SensorState) (x : Nat),
      (analogReady s x).1.chan = (s.chan + 1) % MICROBIT_LIGHT_SENSOR_CHAN_NUM) ∧
    (∀ trace : List Nat,
      (run trace).chan = trace.length % MICROBIT_LIGHT_SENSOR_CHAN_NUM ∧
      (run trace).chan < MICROBIT_LIGHT_SENSOR_CHAN_NUM) := by
  refine ⟨rfl, ?_, ?_⟩
  · intro s x
    exact (analogReady_shape s x).1
  · intro trace
    refine ⟨run_chan trace, ?_⟩
    rw [run_chan trace]
    exact Nat.mod_lt _ (by decide)

/-- Claim C6: whenever read does not take the sentinel return, it returns
the selected average clamped into [MIN_VALUE, MAX_VALUE], inverted as
(MAX_VALUE - clamped) + MIN_VALUE and rescaled by truncating division
((inverted - MIN_VALUE) * 255 / (MAX_VALUE - MIN_VALUE)), an integer in
[0, 255]; in particular after samples 100, 150, 125 (running average 125)
read(false) returns 184. -/
theorem read_clamp_invert_rescale :
    (∀ (s : SensorState) (b : Bool), (b = false ∨ 0 ≤ s.valid_average) →
      read s b = read_spec (if b then s.valid_average else s.average) ∧
      0 ≤ read s b ∧ read s b ≤ 255) ∧
    read (run [100, 150, 125]) false = 184 := by
  refine ⟨?_, by decide⟩
  intro s b h
  have h1 := read_eq_spec s b h
  refine ⟨h1, ?_, ?_⟩
  · rw [h1]
    exact (read_spec_bounds _).1
  · rw [h1]
    exact (read_spec_bounds _).2

/-- Witness for claim C6 at the concrete state reached by the samples
100, 150, 125 of the spec scenario, with valid_only = false. -/
theorem read_clamp_invert_rescale_witness :
    read (run [100, 150, 125]) false
        = read_spec (if false then (run [100, 150, 125]).valid_average
                     else (run [100, 150, 125]).average) ∧
    0 ≤ read (run [100, 150, 125]) false ∧
    read (run [100, 150, 125]) false ≤ 255 :=
  read_clamp_invert_rescale.1 (run [100, 150, 125]) false (Or.inl rfl)

/-- Claim C7: after construction every results slot is the never-sampled
sentinel -1, average and valid_average both equal -1 (the initial average
is modelled from the spec because its initializer lives in the header
outside the excerpt), and the constructor registers the startSensing
listener when the default event bus exists. -/
theorem constructor_initial_state :
    (∀ i, i < MICROBIT_LIGHT_SENSOR_CHAN_NUM → initState.results.getD i 0 = -1) ∧
    initState.average = -1 ∧ initState.valid_average = -1 ∧
    constructorActions true = [TeardownAction.listenStartSensing] := by
  refine ⟨?_, rfl, rfl, rfl⟩
  intro i hi
  simp only [MICROBIT_LIGHT_SENSOR_CHAN_NUM] at hi
  interval_cases i <;> rfl

/-- Witness for claim C7 at the concrete channel 0. -/
theorem constructor_initial_state_witness :
    initState.results.getD 0 0 = -1 :=
  constructor_initial_state.1 0 (by decide)

/-- Claim C8 (code evaluation): the destructor of the source cancels
nothing and frees nothing: it only deregisters the startSensing listener,
so an armed analogTrigger callback survives teardown.  This exhibits the
divergence from the claim, which requires the deferred callback to be
cancelled synchronously before owned resources are released. -/
theorem destructor_performs_no_cancellation :
    (∀ b : Bool, (destructorActions b).contains TeardownAction.cancelTrigger = false ∧
        (destructorActions b).contains TeardownAction.freeSensePin = false) ∧
    destructorActions true = [TeardownAction.ignoreStartSensing] := by
  decide

/-- Claim C9 (code evaluation): startSensing consults no in-flight flag:
invoked while the previous cycle is still settling (trigger armed, cycle
not yet SAMPLED) it emits the full acquire/arm action sequence, identical
to the one emitted from the idle state, instead of rejecting or queueing
the request. -/
theorem startSensing_has_no_reentrancy_guard :
    CycleAction.armTrigger ∈ (startSensing ⟨true, true⟩).2 ∧
    CycleAction.allocSensePin ∈ (startSensing ⟨true, true⟩).2 ∧
    (∀ b : Bool, (startSensing ⟨true, b⟩).2 = (startSensing ⟨false, b⟩).2) := by
  decide

/-- Claim C10: in every reachable state each results slot is either the
never-sampled sentinel -1 or a nonnegative 16-bit conversion value in
[0, 65535], and a slot is negative exactly while its channel has not yet
been sampled (channel i is first written by the i-th completed
conversion, so it is sampled iff the trace is longer than i). -/
theorem results_slot_invariant (trace : List Nat)
    (hb : ∀ x ∈ trace, x ≤ 65535) :
    ∀ i, i < MICROBIT_LIGHT_SENSOR_CHAN_NUM →
      ((run trace).results.getD i 0 = -1 ∨
        (0 ≤ (run trace).results.getD i 0 ∧ (run trace).results.getD i 0 ≤ 65535)) ∧
      ((run trace).results.getD i 0 < 0 ↔ trace.length ≤ i) :=
  run_slots trace hb

/-- Witness for claim C10 on the two-sample trace 100, 200 at channel 2,
which has not been sampled yet. -/
theorem results_slot_invariant_witness :
    ((run [100, 200]).results.getD 2 0 = -1 ∨
      (0 ≤ (run [100, 200]).results.getD 2 0 ∧
       (run [100, 200]).results.getD 2 0 ≤ 65535)) ∧
    ((run [100, 200]).results.getD 2 0 < 0 ↔ [100, 200].length ≤ 2) :=
  results_slot_invariant [100, 200] (by decide) 2 (by decide)

end MicroBitDAL
